import Mathlib

/-! Verification of the Thermopro TP357 acquisition pipeline.

Shallow embedding of the acquisition core of `src/main.rs`: the BLE
manufacturer-data decoder, the scanner cycle timing and observe phase,
the dedupe/persist loop (`background_data_processor`), the CSV write
path (`log_to_csv`) and the CSV history loader
(`load_history_from_csv`).

Modelling conventions:
* Rust machine integers become `Nat`/`Int`/`Fin`; bytes are `Fin 256`,
  `u16` company ids are `Fin 65536`, `u64` durations in whole seconds
  are `Nat`.
* The `f32` temperature is everywhere an exact multiple of one tenth
  in this program (the decoder produces `i16 / 10`, the writer prints
  one fractional digit, history values come back through that writer),
  so temperatures are modelled exactly as `Int` values in tenths of a
  degree (`tempDeci`); the `f32` value is `tempDeci / 10`.
* A file is its list of lines, each line a `List Char` without the
  line terminator; an absent file is `none`.
* Fallible environment steps (file opens, writes, flushes, channel
  sends, the CSV write outcome) are injected explicitly through small
  environment records, and loops become step functions on explicit
  state.
-/

namespace TP357

/-- A payload byte (Rust `u8`). -/
abbrev Byte := Fin 256

/-! ## Decoder (src/main.rs lines 583-591) -/

/-- Rust `i16::from_le_bytes [lo, hi]`: the signed 16-bit integer whose
little-endian byte representation is `[lo, hi]`. -/
def i16_from_le_bytes (lo hi : Byte) : Int :=
  let u : Nat := lo.val + 256 * hi.val
  if u < 32768 then (u : Int) else (u : Int) - 65536

/-- The high byte of a `u16` company identifier, i.e. Rust
`(company_id >> 8) as u8`. -/
def companyIdHighByte (cid : Fin 65536) : Byte :=
  ⟨cid.val / 256, by have h := cid.isLt; omega⟩

/-- A decoded reading. `tempDeci` is the temperature in tenths of a
degree Celsius: the Rust `f32` temperature is `tempDeci / 10`. -/
structure Reading where
  tempDeci : Int
  hum : Byte
deriving DecidableEq

/-- The `f32` temperature of a reading, as an exact rational. -/
def Reading.tempC (r : Reading) : ℚ := (r.tempDeci : ℚ) / 10

/-- The decoder embedded from `bluetooth_scanner` (src/main.rs lines
583-591): given one manufacturer-data entry (company id plus byte
sequence), produce a reading when the byte sequence has at least two
bytes, by assembling `i16::from_le_bytes [(company_id >> 8) as u8,
data[0]]` and taking `data[1]` as the humidity; otherwise no reading. -/
def decode_manufacturer_data (cid : Fin 65536) (data : List Byte) : Option Reading :=
  if h : 2 ≤ data.length then
    some { tempDeci := i16_from_le_bytes (companyIdHighByte cid) (data.get ⟨0, by omega⟩)
           hum := data.get ⟨1, by omega⟩ }
  else
    none

/-! ## Configuration (src/main.rs lines 31-56) -/

/-- Mirror of the Rust `Config` struct. Durations are whole seconds
(Rust `u64`); the two `f32` display thresholds are modelled as exact
rationals (they are never read by the core). -/
structure Config where
  target_mac : List Char
  scan_timeout_secs : Nat
  scan_pause_secs : Nat
  duplicate_threshold_secs : Nat
  temp_warn_high : ℚ
  temp_warn_low : ℚ
  continuous_mode : Bool
  load_all_history : Bool

/-- The `Default` impl of `Config` (src/main.rs lines 43-56). -/
def Config.default : Config :=
  { target_mac := "B8:59:CE:33:0F:93".toList
    scan_timeout_secs := 20
    scan_pause_secs := 20
    duplicate_threshold_secs := 30
    temp_warn_high := 30
    temp_warn_low := 10
    continuous_mode := true
    load_all_history := true }

/-! ## Scanner cycle timing (src/main.rs lines 560-606) -/

/-- Length in seconds of the observe window chosen each scanner cycle
(line 574): 60 in continuous mode, else `scan_timeout_secs`. -/
def scan_window_secs (c : Config) : Nat :=
  if c.continuous_mode then 60 else c.scan_timeout_secs

/-- Idle pause in seconds at the end of each scanner cycle (line 604):
1 in continuous mode, else `scan_pause_secs`. -/
def idle_pause_secs (c : Config) : Nat :=
  if c.continuous_mode then 1 else c.scan_pause_secs

/-- Back-off in seconds after a failed BT manager initialisation
(line 565): 1 in continuous mode, else `scan_pause_secs`. -/
def adapter_failure_backoff_secs (c : Config) : Nat :=
  if c.continuous_mode then 1 else c.scan_pause_secs

/-! ## Timestamps

`chrono` timestamps restricted to what this program produces and
parses: calendar date plus time of day at second resolution, years
with four decimal digits. -/

/-- A local calendar timestamp at second resolution. -/
structure Timestamp where
  year : Nat
  month : Nat
  day : Nat
  hour : Nat
  minute : Nat
  second : Nat
deriving DecidableEq

/-- Gregorian leap-year rule. -/
def is_leap_year (y : Nat) : Bool :=
  y % 4 == 0 && (y % 100 != 0 || y % 400 == 0)

/-- Days in a month of the Gregorian calendar. -/
def days_in_month (y m : Nat) : Nat :=
  if m = 2 then (if is_leap_year y then 29 else 28)
  else if m = 4 ∨ m = 6 ∨ m = 9 ∨ m = 11 then 30
  else 31

/-- Validity of a timestamp: the calendar checks `chrono` performs when
parsing, restricted to four-digit years. -/
def Timestamp.valid (t : Timestamp) : Bool :=
  decide (t.year ≤ 9999) && decide (1 ≤ t.month) && decide (t.month ≤ 12) &&
  decide (1 ≤ t.day) && decide (t.day ≤ days_in_month t.year t.month) &&
  decide (t.hour ≤ 23) && decide (t.minute ≤ 59) && decide (t.second ≤ 59)

/-! ## Raw readings and channel messages (src/main.rs lines 58-62) -/

/-- Mirror of the Rust `BleDataPoint`. -/
structure BleDataPoint where
  timestamp : Timestamp
  tempDeci : Int
  hum : Byte
  device_id : List Char
  rssi : Option Int
  raw_data : List Byte
deriving DecidableEq

/-- Mirror of the Rust `AppMessage` channel message. -/
inductive AppMessage where
  | newData (dp : BleDataPoint)
  | statusUpdate (s : List Char)
  | csvWriteStatus (ok : Bool)
deriving DecidableEq

/-! ## Deduper/Persister (src/main.rs lines 511-540)

`background_data_processor` is a loop over received messages with one
piece of state, `last_save_time : Option Instant`.  One iteration is
modelled as a step function; the monotonic clock is `Nat` seconds, and
`now.duration_since(last).as_secs()` is the truncated difference
`now - last` (for an `Instant` pair of the same thread, `last ≤ now`).
The fallible effects of one iteration (the CSV write outcome and the
success of each `tx.send`) are an explicit environment. -/

/-- Outcomes of the fallible effects one processor iteration may
attempt: the result of `log_to_csv` and of each `tx.send`. -/
structure ProcEnv where
  write_ok : Bool
  csv_status_send_ok : Bool
  data_send_ok : Bool
  status_send_ok : Bool
deriving DecidableEq

/-- Observable outcome of one processor iteration: the messages passed
to `tx.send` in order, whether `log_to_csv` was invoked, the new
`last_save_time`, and whether the loop `break`s. -/
structure ProcEffects where
  sent : List AppMessage
  wrote_csv : Bool
  last_save_time : Option Nat
  loop_break : Bool
deriving DecidableEq

/-- One iteration of the `background_data_processor` loop (src/main.rs
lines 514-537) on one received message at monotonic time `now`.
On `NewData`: accept when there is no prior acceptance or when
`now - last` reaches `duplicate_threshold_secs`; acceptance writes the
CSV row, sends the write outcome (result discarded, line 526), updates
`last_save_time`, then forwards the reading (send failure breaks the
loop, line 528); otherwise the message is dropped with no effect.
On `StatusUpdate`: forward (send failure breaks the loop).  On
`CsvWriteStatus`: ignored by the wildcard arm. -/
def background_data_processor_step (c : Config) (last : Option Nat) (now : Nat)
    (env : ProcEnv) (msg : AppMessage) : ProcEffects :=
  match msg with
  | .newData dp =>
    let should_save := match last with
      | none => true
      | some l => decide (c.duplicate_threshold_secs ≤ now - l)
    if should_save then
      { sent := [.csvWriteStatus env.write_ok, .newData dp]
        wrote_csv := true
        last_save_time := some now
        loop_break := !env.data_send_ok }
    else
      { sent := [], wrote_csv := false, last_save_time := last, loop_break := false }
  | .statusUpdate s =>
      { sent := [.statusUpdate s], wrote_csv := false, last_save_time := last
        loop_break := !env.status_send_ok }
  | .csvWriteStatus _ =>
      { sent := [], wrote_csv := false, last_save_time := last, loop_break := false }

/-! ## Scanner observe phase (src/main.rs lines 575-598) -/

/-- ASCII lower-casing of one character (Rust `eq_ignore_ascii_case`). -/
def asciiToLower (c : Char) : Char :=
  if 'A' ≤ c ∧ c ≤ 'Z' then Char.ofNat (c.toNat + 32) else c

/-- Rust `str::eq_ignore_ascii_case`. -/
def eq_ignore_ascii_case (a b : List Char) : Bool :=
  a.map asciiToLower == b.map asciiToLower

/-- Advertisement properties as consumed by the scanner: address, RSSI
and the first manufacturer-data entry of the device (the single entry
`props.manufacturer_data.iter().next()` yields, `none` when the map is
empty). -/
structure BleProps where
  address : List Char
  rssi : Option Int
  manufacturer_entry : Option (Fin 65536 × List Byte)
deriving DecidableEq

/-- One event drawn from `central.events()` together with the outcomes
of the per-event adapter calls: whether it is a `DeviceDiscovered` or
`DeviceUpdated` event, whether `central.peripheral(&id)` succeeded,
the `p.properties()` outcome (`none` for `Err` or `Ok(None)`), the
device identifier and the `Local::now()` timestamp at decode time. -/
structure BleEvent where
  is_device_event : Bool
  peripheral_ok : Bool
  props : Option BleProps
  device_id : List Char
  now : Timestamp
deriving DecidableEq

/-- The reading one event produces, if any: the event must be a device
event, the peripheral and properties lookups must succeed, the address
must match `target_mac` case-insensitively, and the first
manufacturer-data entry must decode (src/main.rs lines 578-587). -/
def event_reading (c : Config) (e : BleEvent) : Option BleDataPoint :=
  if e.is_device_event then
    if e.peripheral_ok then
      match e.props with
      | some props =>
        if eq_ignore_ascii_case props.address c.target_mac then
          match props.manufacturer_entry with
          | some (cid, data) =>
            match decode_manufacturer_data cid data with
            | some r =>
              some { timestamp := e.now, tempDeci := r.tempDeci, hum := r.hum
                     device_id := e.device_id, rssi := props.rssi, raw_data := data }
            | none => none
          | none => none
        else none
      | none => none
    else none
  else none

/-- The observe phase of one scanner cycle (src/main.rs lines 575-598)
on the finite list of events the window delivers.  `send_ok` is
whether `tx.send` succeeds (the receiver is still alive).  Returns the
data points successfully emitted and the events left unobserved when
the phase stopped early: `break` on a send failure (line 589), or
`return` after one successful emission in non-continuous mode
(line 590). -/
def observe_events (c : Config) (send_ok : Bool) : List BleEvent → List BleDataPoint × List BleEvent
  | [] => ([], [])
  | e :: rest =>
    match event_reading c e with
    | none => observe_events c send_ok rest
    | some dp =>
      if send_ok then
        if c.continuous_mode then
          let r := observe_events c send_ok rest
          (dp :: r.1, r.2)
        else ([dp], rest)
      else ([], rest)

/-! ## Claim C1: decoder contract -/

/-- Claim C1. For every manufacturer-data entry (company identifier plus
byte sequence), a reading is produced if and only if the byte sequence
has at least 2 bytes; when produced, the temperature equals the 16-bit
little-endian signed integer assembled from the high byte of the
company identifier (low byte) and the first payload byte (high byte),
divided by 10, and the humidity is the second payload byte unchecked;
any shorter payload yields no reading and no error (`none`, not an
error value). -/
theorem decoder_contract (cid : Fin 65536) (data : List Byte) :
    ((decode_manufacturer_data cid data).isSome ↔ 2 ≤ data.length) ∧
    (∀ b0 b1 rest, data = b0 :: b1 :: rest →
      decode_manufacturer_data cid data =
        some { tempDeci := i16_from_le_bytes (companyIdHighByte cid) b0, hum := b1 } ∧
      ∀ r, decode_manufacturer_data cid data = some r →
        r.tempC = (i16_from_le_bytes (companyIdHighByte cid) b0 : ℚ) / 10 ∧ r.hum = b1) ∧
    (data.length < 2 → decode_manufacturer_data cid data = none) := by
  refine ⟨?_, ?_, ?_⟩
  · unfold decode_manufacturer_data
    split <;> simp <;> omega
  · rintro b0 b1 rest rfl
    have h2 : 2 ≤ (b0 :: b1 :: rest).length := by simp
    constructor
    · simp [decode_manufacturer_data, h2]
    · intro r hr
      simp [decode_manufacturer_data, h2] at hr
      subst hr
      simp [Reading.tempC]
  · intro h
    unfold decode_manufacturer_data
    split
    · omega
    · rfl

/-- Witness for C1 at a concrete negative-temperature input: company id
`0xFF00` (high byte `0xFF`) and payload `[0xD7, 0x3C]` decode to raw
temperature `-10241` tenths (`-1024.1` °C) and humidity `60`. -/
theorem decoder_contract_witness :
    decode_manufacturer_data (65280 : Fin 65536) [(215 : Byte), (60 : Byte)] =
      some { tempDeci := -10241, hum := (60 : Byte) } := by
  have h := ((decoder_contract (65280 : Fin 65536) [(215 : Byte), (60 : Byte)]).2.1
    (215 : Byte) (60 : Byte) [] rfl).1
  rw [h]
  decide

/-! ## Claim C2: dedupe policy -/

/-- Claim C2. For every raw reading processed by the Deduper/Persister:
with no prior acceptance it is always accepted; with a prior
acceptance at `l` and processing-time gap `now - l` at least
`duplicate_threshold_secs` it is accepted — the CSV write is
performed, the write outcome is sent, `last_save_time` becomes `now`,
and the reading is forwarded; with a gap below the threshold it is
dropped silently — no write, no send, unchanged `last_save_time`, no
loop exit. -/
theorem dedupe_policy (c : Config) (now : Nat) (env : ProcEnv) (dp : BleDataPoint) :
    (background_data_processor_step c none now env (.newData dp) =
      { sent := [.csvWriteStatus env.write_ok, .newData dp], wrote_csv := true
        last_save_time := some now, loop_break := !env.data_send_ok }) ∧
    (∀ l, c.duplicate_threshold_secs ≤ now - l →
      background_data_processor_step c (some l) now env (.newData dp) =
        { sent := [.csvWriteStatus env.write_ok, .newData dp], wrote_csv := true
          last_save_time := some now, loop_break := !env.data_send_ok }) ∧
    (∀ l, now - l < c.duplicate_threshold_secs →
      background_data_processor_step c (some l) now env (.newData dp) =
        { sent := [], wrote_csv := false, last_save_time := some l, loop_break := false }) := by
  refine ⟨rfl, ?_, ?_⟩
  · intro l h
    simp [background_data_processor_step, h]
  · intro l h
    simp [background_data_processor_step, Nat.not_le.mpr h]

/-- A concrete data point used by several witnesses. -/
def dp0 : BleDataPoint :=
  { timestamp := ⟨2024, 5, 17, 12, 0, 0⟩, tempDeci := 215, hum := (60 : Byte)
    device_id := "hci0/dev_B8_59_CE_33_0F_93".toList, rssi := some (-60)
    raw_data := [(215 : Byte), (60 : Byte)] }

/-- An environment in which every effect succeeds. -/
def procEnvOk : ProcEnv :=
  { write_ok := true, csv_status_send_ok := true, data_send_ok := true, status_send_ok := true }

/-- Witness for C2: with the default configuration (threshold 30 s), a
reading 10 s after the last acceptance is dropped with no effect, and
one 30 s after it is accepted. -/
theorem dedupe_policy_witness :
    background_data_processor_step Config.default (some 100) 110 procEnvOk (.newData dp0) =
      { sent := [], wrote_csv := false, last_save_time := some 100, loop_break := false } ∧
    background_data_processor_step Config.default (some 100) 130 procEnvOk (.newData dp0) =
      { sent := [.csvWriteStatus true, .newData dp0], wrote_csv := true
        last_save_time := some 130, loop_break := false } := by
  constructor
  · exact (dedupe_policy Config.default 110 procEnvOk dp0).2.2 100 (by decide)
  · have h := (dedupe_policy Config.default 130 procEnvOk dp0).2.1 100 (by decide)
    simpa [procEnvOk] using h

/-! ## Claim C10: asymmetric termination on send failure -/

/-- Claim C10. In the Deduper/Persister loop, the outcome of sending the
`CsvWriteStatus` message is discarded: the iteration's result does not
depend on it at all, and in particular the loop never breaks because
of it.  By contrast, a failed forward of an accepted `NewData` reading
breaks the loop, and a failed forward of a `StatusUpdate` breaks the
loop. -/
theorem send_failure_asymmetry (c : Config) (last : Option Nat) (now : Nat)
    (env : ProcEnv) (dp : BleDataPoint) (s : List Char) :
    (∀ b msg, background_data_processor_step c last now
        { env with csv_status_send_ok := b } msg =
      background_data_processor_step c last now env msg) ∧
    (env.data_send_ok = true → env.status_send_ok = true →
      ∀ msg, (background_data_processor_step c last now env msg).loop_break = false) ∧
    (env.data_send_ok = false →
      (background_data_processor_step c none now env (.newData dp)).loop_break = true) ∧
    (env.status_send_ok = false →
      (background_data_processor_step c last now env (.statusUpdate s)).loop_break = true) := by
  refine ⟨?_, ?_, ?_, ?_⟩
  · intro b msg
    cases msg <;> rfl
  · intro hd hs msg
    cases msg with
    | newData dp =>
      simp only [background_data_processor_step]
      split <;> simp [hd]
    | statusUpdate s => simp [background_data_processor_step, hs]
    | csvWriteStatus ok => rfl
  · intro hd
    simp [background_data_processor_step, hd]
  · intro hs
    simp [background_data_processor_step, hs]

/-- Witness for C10: a failed `CsvWriteStatus` send alone (all other
sends succeeding) leaves the loop running on an accepted reading,
while a failed `NewData` forward breaks it. -/
theorem send_failure_asymmetry_witness :
    (background_data_processor_step Config.default none 0
      { procEnvOk with csv_status_send_ok := false } (.newData dp0)).loop_break = false ∧
    (background_data_processor_step Config.default none 0
      { procEnvOk with data_send_ok := false } (.newData dp0)).loop_break = true := by
  constructor
  · have h := (send_failure_asymmetry Config.default none 0
      { procEnvOk with csv_status_send_ok := false } dp0 []).2.1 rfl rfl (.newData dp0)
    exact h
  · exact (send_failure_asymmetry Config.default none 0
      { procEnvOk with data_send_ok := false } dp0 []).2.2.1 rfl

/-! ## Claim C6: mode-dependent timing -/

/-- Claim C6. In continuous mode every scanner cycle uses a fixed
60-second observe window, a fixed 1-second idle pause and a 1-second
adapter-failure back-off, regardless of `scan_timeout_secs` and
`scan_pause_secs`; in non-continuous mode the observe window is
exactly `scan_timeout_secs` and both the idle pause and the
adapter-failure back-off are exactly `scan_pause_secs`. -/
theorem mode_dependent_timing (c : Config) :
    (c.continuous_mode = true →
      scan_window_secs c = 60 ∧ idle_pause_secs c = 1 ∧
      adapter_failure_backoff_secs c = 1) ∧
    (c.continuous_mode = false →
      scan_window_secs c = c.scan_timeout_secs ∧
      idle_pause_secs c = c.scan_pause_secs ∧
      adapter_failure_backoff_secs c = c.scan_pause_secs) := by
  constructor <;> intro h <;>
    simp [scan_window_secs, idle_pause_secs, adapter_failure_backoff_secs, h]

/-- Witness for C6: the default configuration is continuous with
`scan_timeout_secs = scan_pause_secs = 20`, yet its windows are
60 s / 1 s / 1 s. -/
theorem mode_dependent_timing_witness :
    scan_window_secs Config.default = 60 ∧ idle_pause_secs Config.default = 1 ∧
      adapter_failure_backoff_secs Config.default = 1 :=
  (mode_dependent_timing Config.default).1 rfl

/-! ## Claim C7: single-shot observe semantics -/

theorem observe_events_single_shot_le_one (c : Config) (hc : c.continuous_mode = false) :
    ∀ events, (observe_events c true events).1.length ≤ 1 := by
  intro events
  induction events with
  | nil => simp [observe_events]
  | cons e rest ih =>
    simp only [observe_events]
    cases h : event_reading c e with
    | none => exact ih
    | some dp => simp [hc]

theorem observe_events_first_emission (c : Config) (hc : c.continuous_mode = false)
    (e : BleEvent) (dp : BleDataPoint) (he : event_reading c e = some dp) :
    ∀ pre post, (∀ x ∈ pre, event_reading c x = none) →
      observe_events c true (pre ++ e :: post) = ([dp], post) := by
  intro pre
  induction pre with
  | nil =>
    intro post _
    simp [observe_events, he, hc]
  | cons x xs ih =>
    intro post hnone
    have hx : event_reading c x = none := hnone x (by simp)
    simp only [List.cons_append, observe_events, hx]
    exact ih post (fun y hy => hnone y (by simp [hy]))

theorem observe_events_continuous_all (c : Config) (hc : c.continuous_mode = true) :
    ∀ events, observe_events c true events = (events.filterMap (event_reading c), []) := by
  intro events
  induction events with
  | nil => simp [observe_events]
  | cons e rest ih =>
    simp only [observe_events, List.filterMap_cons]
    cases h : event_reading c e with
    | none => exact ih
    | some dp => simp [hc, ih]

/-- Claim C7. Within one observe window: in non-continuous mode at most
one reading is emitted, and once the first reading from the target is
successfully emitted no further events are observed (the events after
it are returned untouched and nothing more is emitted); in continuous
mode (with the consumer alive) the scanner observes every event of the
window and emits one reading per decodable matching event, however
many there are. -/
theorem single_shot_observe (c : Config) :
    (c.continuous_mode = false →
      ∀ events, (observe_events c true events).1.length ≤ 1) ∧
    (c.continuous_mode = false →
      ∀ pre e post dp, (∀ x ∈ pre, event_reading c x = none) →
        event_reading c e = some dp →
        observe_events c true (pre ++ e :: post) = ([dp], post)) ∧
    (c.continuous_mode = true →
      ∀ events, observe_events c true events = (events.filterMap (event_reading c), [])) := by
  refine ⟨fun hc => observe_events_single_shot_le_one c hc, ?_, ?_⟩
  · intro hc pre e post dp hpre he
    exact observe_events_first_emission c hc e dp he pre post hpre
  · intro hc
    exact observe_events_continuous_all c hc

/-- A concrete event from the target device carrying the payload of
`dp0` (address differing from the configured one only by ASCII case). -/
def ev0 : BleEvent :=
  { is_device_event := true, peripheral_ok := true
    props := some { address := "b8:59:ce:33:0f:93".toList, rssi := some (-60)
                    manufacturer_entry := some ((55040 : Fin 65536), [(0 : Byte), (60 : Byte)]) }
    device_id := "hci0/dev_B8_59_CE_33_0F_93".toList
    now := ⟨2024, 5, 17, 12, 0, 0⟩ }

/-- The reading `ev0` decodes to under the default target MAC: the
company id `0xD700` contributes the low temperature byte `0xD7`, so
the temperature is `215` tenths (21.5 °C). -/
def evReading0 : BleDataPoint :=
  { timestamp := ⟨2024, 5, 17, 12, 0, 0⟩, tempDeci := 215, hum := (60 : Byte)
    device_id := "hci0/dev_B8_59_CE_33_0F_93".toList, rssi := some (-60)
    raw_data := [(0 : Byte), (60 : Byte)] }

/-- Witness for C7: with the default configuration switched to
non-continuous mode, a window delivering the matching event twice
emits exactly one reading and leaves the second event unobserved. -/
theorem single_shot_observe_witness :
    observe_events { Config.default with continuous_mode := false } true [ev0, ev0] =
      ([evReading0], [ev0]) := by
  have h := (single_shot_observe { Config.default with continuous_mode := false }).2.1 rfl
    [] ev0 [ev0] evReading0 (by intro x hx; simp at hx) (by decide)
  simpa using h

/-! ## Decimal digits

Helpers for the textual formats of `log_to_csv` and
`load_history_from_csv`.  All numerals this program prints are below
100000 (u8 humidities, four-digit years, `i16 / 10` temperature
magnitudes), so the unpadded decimal printer is defined by explicit
magnitude cases, which keeps every proof a plain `omega` argument. -/

/-- The decimal digit character for `n < 10`. -/
def digitChar (n : Nat) : Char :=
  if n = 0 then '0' else if n = 1 then '1' else if n = 2 then '2'
  else if n = 3 then '3' else if n = 4 then '4' else if n = 5 then '5'
  else if n = 6 then '6' else if n = 7 then '7' else if n = 8 then '8'
  else if n = 9 then '9' else '*'

/-- The value of a decimal digit character. -/
def digitVal (c : Char) : Option Nat :=
  if '0' ≤ c ∧ c ≤ '9' then some (c.toNat - 48) else none

/-- Two-digit zero-padded decimal (chrono `%m`, `%d`, `%H`, `%M`, `%S`). -/
def pad2 (n : Nat) : List Char :=
  [digitChar (n / 10 % 10), digitChar (n % 10)]

/-- Four-digit zero-padded decimal (chrono `%Y` for the years this
program sees). -/
def pad4 (n : Nat) : List Char :=
  [digitChar (n / 1000 % 10), digitChar (n / 100 % 10), digitChar (n / 10 % 10),
    digitChar (n % 10)]

/-- Unpadded decimal digits of `n`, for the numerals of this program
(all below 100000); matches Rust `Display` on that range. -/
def natDigits (n : Nat) : List Char :=
  if n < 10 then [digitChar n]
  else if n < 100 then [digitChar (n / 10), digitChar (n % 10)]
  else if n < 1000 then [digitChar (n / 100), digitChar (n / 10 % 10), digitChar (n % 10)]
  else if n < 10000 then
    [digitChar (n / 1000), digitChar (n / 100 % 10), digitChar (n / 10 % 10), digitChar (n % 10)]
  else
    [digitChar (n / 10000 % 10), digitChar (n / 1000 % 10), digitChar (n / 100 % 10),
      digitChar (n / 10 % 10), digitChar (n % 10)]

/-- Accumulating decimal parser over digit characters. -/
def parseNatAux : List Char → Nat → Option Nat
  | [], acc => some acc
  | ch :: rest, acc =>
    match digitVal ch with
    | some d => parseNatAux rest (10 * acc + d)
    | none => none

/-- Rust `str::parse` for unsigned integers on plain digit strings:
at least one digit, digits only. -/
def parseNatDigits (cs : List Char) : Option Nat :=
  match cs with
  | [] => none
  | _ :: _ => parseNatAux cs 0

/-- Rust `hum_str.parse::<u8>()`: digits whose value fits in a byte. -/
def parseHumU8 (cs : List Char) : Option Byte :=
  match parseNatDigits cs with
  | some n => if h : n < 256 then some ⟨n, h⟩ else none
  | none => none

/-- Reads a two-digit group: `parse2 a b` reads a two-digit group. -/
def parse2 (a b : Char) : Option Nat :=
  match digitVal a, digitVal b with
  | some x, some y => some (10 * x + y)
  | _, _ => none

/-- Reads a four-digit group: `parse4 a b c d` reads a four-digit group. -/
def parse4 (a b c d : Char) : Option Nat :=
  match digitVal a, digitVal b, digitVal c, digitVal d with
  | some w, some x, some y, some z => some (1000 * w + 100 * x + 10 * y + z)
  | _, _, _, _ => none

/-! ## Timestamp formats -/

/-- The chrono format `now.format("%Y-%m-%dT%H:%M:%S")` (src/main.rs line 427): the
fixed sortable timestamp of the current log format. -/
def formatIsoTimestamp (t : Timestamp) : List Char :=
  pad4 t.year ++ '-' :: pad2 t.month ++ '-' :: pad2 t.day ++ 'T' :: pad2 t.hour ++
    ':' :: pad2 t.minute ++ ':' :: pad2 t.second

/-- Shared body of the two fixed-width timestamp parsers: both
patterns are 19 characters with five separator positions; `chrono`
rejects out-of-range calendar components, hence the `valid` check. -/
def parseStampWith (sep1 sep2 sep3 : Char) (cs : List Char) : Option Timestamp :=
  match cs with
  | [y1, y2, y3, y4, a1, mo1, mo2, a2, d1, d2, a3, h1, h2, a4, mi1, mi2, a5, s1, s2] =>
    if a1 = sep1 ∧ a2 = sep1 ∧ a3 = sep2 ∧ a4 = sep3 ∧ a5 = sep3 then
      match parse4 y1 y2 y3 y4, parse2 mo1 mo2, parse2 d1 d2,
            parse2 h1 h2, parse2 mi1 mi2, parse2 s1 s2 with
      | some y, some mo, some d, some h, some mi, some se =>
        let t : Timestamp := ⟨y, mo, d, h, mi, se⟩
        if t.valid then some t else none
      | _, _, _, _, _, _ => none
    else none
  | _ => none

/-- Chrono `NaiveDateTime::parse_from_str(s, "%Y-%m-%dT%H:%M:%S")`
(src/main.rs line 475). -/
def parseIsoTimestamp (cs : List Char) : Option Timestamp :=
  parseStampWith '-' 'T' ':' cs

/-- Chrono `NaiveDateTime::parse_from_str(s, "%Y.%m.%d %H:%M:%S")`
(src/main.rs line 491), applied to the joined legacy date and time
columns. -/
def parseLegacyTimestamp (cs : List Char) : Option Timestamp :=
  parseStampWith '.' ' ' ':' cs

/-! ## Temperature format -/

/-- Rust one-decimal formatting (`format!` with precision 1) of the
`f32` temperature `d / 10`: optional sign, unpadded integer part, dot,
exactly one fractional digit. -/
def formatTempDeci (d : Int) : List Char :=
  (if d < 0 then ['-'] else []) ++ natDigits (d.natAbs / 10) ++
    '.' :: [digitChar (d.natAbs % 10)]

/-- Rust `replace(',', ".")` on the temperature column (src/main.rs
lines 477 and 492). -/
def decommaChars (cs : List Char) : List Char :=
  cs.map (fun ch => if ch = ',' then '.' else ch)

/-- Split a character list at every occurrence of `d`. -/
def splitOnChar (d : Char) : List Char → List (List Char)
  | [] => [[]]
  | ch :: rest =>
    match splitOnChar d rest with
    | [] => [[ch]]
    | f :: fs => if ch = d then [] :: f :: fs else (ch :: f) :: fs

/-- Magnitude part of `str::parse::<f32>` at the one-decimal
resolution of this program, in tenths: digits optionally followed by a
dot and one fractional digit.  (The full `f32` grammar is wider, but
every temperature string this program writes or stores has at most one
fractional digit, and the value is then exact.) -/
def parseTempMagnitude (cs : List Char) : Option Nat :=
  match splitOnChar '.' cs with
  | [ip] => (parseNatDigits ip).map (10 * ·)
  | [ip, [fd]] =>
    match parseNatDigits ip, digitVal fd with
    | some i, some f => some (10 * i + f)
    | _, _ => none
  | _ => none

/-- Rust `temp_str.replace(',', ".").parse::<f32>()` at one-decimal
resolution, as an exact count of tenths. -/
def parseTempDeci (cs : List Char) : Option Int :=
  match cs with
  | [] => none
  | ch :: rest =>
    if ch = '-' then
      match parseTempMagnitude rest with
      | some n => some (-(n : Int))
      | none => none
    else
      match parseTempMagnitude (ch :: rest) with
      | some n => some ((n : Int))
      | none => none

/-! ## CSV reader model

Model of `csv::ReaderBuilder::new().delimiter(delim).from_reader(..)`
followed by `.records().filter_map(Result::ok).collect()`
(src/main.rs lines 448-456): with the default `has_headers = true`
the first non-empty line is consumed as the header and not yielded;
every later non-empty line is split on the delimiter; with the default
`flexible = false` a record whose field count differs from the
header's yields an `UnequalLengths` error, which `filter_map` drops.
The files this program reads and writes contain no quote characters,
so quoting is not modelled.  A file is its list of lines. -/

def csv_ok_records (delim : Char) (lines : List (List Char)) : List (List (List Char)) :=
  match lines.filter (fun l => !l.isEmpty) with
  | [] => []
  | header :: rest =>
    rest.filterMap (fun l =>
      let fs := splitOnChar delim l
      if fs.length = (splitOnChar delim header).length then some fs else none)

/-! ## History points and row parsing (src/main.rs lines 471-497) -/

/-- Mirror of the Rust `HistoryPoint`; the `f32` temperature is the
exact value `tempDeci / 10`. -/
structure HistoryPoint where
  timestamp : Timestamp
  tempDeci : Int
  hum : Byte
deriving DecidableEq

/-- The per-record body of the load loop (src/main.rs lines 471-497):
first the current 3-column format `DateTime,Temperature,Humidity`
(ISO timestamp, decimal temperature with dot or comma separator, `u8`
humidity); on any failure, the legacy 4-column format (date and time
columns joined with a space against the `%Y.%m.%d %H:%M:%S` pattern).
A record matching neither format is skipped (`none`). -/
def parse_history_record (r : List (List Char)) : Option HistoryPoint :=
  let newFmt : Option HistoryPoint :=
    if 3 ≤ r.length then
      match r.get? 0, r.get? 1, r.get? 2 with
      | some dts, some tps, some hs =>
        match parseIsoTimestamp dts, parseTempDeci (decommaChars tps), parseHumU8 hs with
        | some t, some temp, some h => some { timestamp := t, tempDeci := temp, hum := h }
        | _, _, _ => none
      | _, _, _ => none
    else none
  match newFmt with
  | some p => some p
  | none =>
    match r.get? 0, r.get? 1, r.get? 2, r.get? 3 with
    | some ds, some ts, some tps, some hs =>
      match parseLegacyTimestamp (ds ++ ' ' :: ts), parseTempDeci (decommaChars tps),
            parseHumU8 hs with
      | some t, some temp, some h => some { timestamp := t, tempDeci := temp, hum := h }
      | _, _, _ => none
    | _, _, _, _ => none

/-! ## History loader (src/main.rs lines 433-501) -/

/-- The constant `MAX_HISTORY_POINTS` (src/main.rs line 26). -/
def MAX_HISTORY_POINTS : Nat := 200

/-- Bounded selection (src/main.rs lines 464-469): with
`load_all_history` keep everything, otherwise skip
`len.saturating_sub(MAX_HISTORY_POINTS)` records. -/
def select_records (load_all : Bool) (recs : List (List (List Char))) :
    List (List (List Char)) :=
  if load_all then recs else recs.drop (recs.length - MAX_HISTORY_POINTS)

/-- The two-delimiter read (src/main.rs lines 446-460): comma first;
if that yields zero records, the same file again with semicolons. -/
def read_all_records (lines : List (List Char)) : List (List (List Char)) :=
  let comma := csv_ok_records ',' lines
  if comma.isEmpty then csv_ok_records ';' lines else comma

/-- Rust `load_history_from_csv` (src/main.rs lines 433-501) with the
filesystem state explicit: `none` is an absent file (early return of
an empty history, line 440), `some lines` its content. -/
def load_history_from_csv (load_all : Bool) (file : Option (List (List Char))) :
    List HistoryPoint :=
  match file with
  | none => []
  | some lines =>
    (select_records load_all (read_all_records lines)).filterMap parse_history_record

/-- Filesystem environment of one loader run, making the fallible
opens visible: the file content if the file exists, whether the first
`fs::File::open` succeeds (line 446), and whether the reopen for the
semicolon retry succeeds (line 454). -/
structure LoadEnv where
  file : Option (List (List Char))
  first_open_ok : Bool
  reopen_ok : Bool
deriving DecidableEq

/-- Result of a loader run in which panics are visible. -/
inductive LoadResult where
  | ok (points : List HistoryPoint)
  | panicked (msg : List Char)
deriving DecidableEq

/-- Rust `load_history_from_csv` with its fallible filesystem calls
explicit.  A failed first open falls back to an empty record list
(line 458); a failed reopen hits
`.expect("failed to reopen file")` (line 454), which panics — the
`panicked` outcome. -/
def load_history_from_csv_env (load_all : Bool) (env : LoadEnv) : LoadResult :=
  match env.file with
  | none => .ok []
  | some lines =>
    if env.first_open_ok then
      let comma := csv_ok_records ',' lines
      if comma.isEmpty then
        if env.reopen_ok then
          .ok ((select_records load_all (csv_ok_records ';' lines)).filterMap
            parse_history_record)
        else .panicked "failed to reopen file".toList
      else .ok ((select_records load_all comma).filterMap parse_history_record)
    else .ok []

/-! ## Log writer (src/main.rs lines 409-431) -/

/-- Join fields with a delimiter: the serialisation of one
`csv::Writer` record (no field of this program needs quoting). -/
def joinFields (d : Char) : List (List Char) → List Char
  | [] => []
  | [f] => f
  | f :: fs => f ++ d :: joinFields d fs

/-- The header record written by `log_to_csv` (line 422). -/
def header_fields : List (List Char) :=
  ["DateTime".toList, "Temperature".toList, "Humidity".toList]

/-- Outcomes of the fallible filesystem steps of one `log_to_csv`
call: the `OpenOptions::open`, the buffered `write_record`s, and the
final `flush`. -/
structure WriteEnv where
  open_ok : Bool
  write_ok : Bool
  flush_ok : Bool
deriving DecidableEq

/-- Rust `log_to_csv` (src/main.rs lines 409-431) on an explicit file
state (`none` = absent).  The header is written first exactly when
the file is absent or has zero length (line 414); the appended row is
the comma-joined ISO timestamp, one-decimal temperature and plain
integer humidity (lines 425-428); the row is flushed before returning
(line 429); any open, write or flush failure is surfaced to the
caller as the error. -/
def log_to_csv (env : WriteEnv) (file : Option (List (List Char))) (now : Timestamp)
    (tempDeci : Int) (hum : Byte) : Except (List Char) (List (List Char)) :=
  if env.open_ok then
    let base := file.getD []
    let withHeader :=
      if file = none ∨ file = some [] then base ++ [joinFields ',' header_fields] else base
    if env.write_ok then
      let row := joinFields ','
        [formatIsoTimestamp now, formatTempDeci tempDeci, natDigits hum.val]
      if env.flush_ok then .ok (withHeader ++ [row])
      else .error "flush failed".toList
    else .error "write failed".toList
  else .error "open failed".toList

/-- A `WriteEnv` in which every filesystem step succeeds. -/
def writeEnvOk : WriteEnv := { open_ok := true, write_ok := true, flush_ok := true }

/-- One entry to persist: the arguments of one accepted reading's
`log_to_csv` call together with its wall-clock time. -/
structure LogEntry where
  ts : Timestamp
  tempDeci : Int
  hum : Byte
deriving DecidableEq

/-- Writing a sequence of readings through `log_to_csv` (each accepted
reading performs one call), starting from a given file state. -/
def write_log : List LogEntry → Option (List (List Char)) → Option (List (List Char))
  | [], file => file
  | e :: es, file =>
    match log_to_csv writeEnvOk file e.ts e.tempDeci e.hum with
    | .ok lines => write_log es (some lines)
    | .error _ => write_log es file

/-- The on-disk row of one entry. -/
def row_of (e : LogEntry) : List Char :=
  joinFields ',' [formatIsoTimestamp e.ts, formatTempDeci e.tempDeci, natDigits e.hum.val]

/-- The CSV fields of one entry's row. -/
def fields_of (e : LogEntry) : List (List Char) :=
  [formatIsoTimestamp e.ts, formatTempDeci e.tempDeci, natDigits e.hum.val]

/-- The `HistoryPoint` an entry should load back as. -/
def point_of (e : LogEntry) : HistoryPoint :=
  { timestamp := e.ts, tempDeci := e.tempDeci, hum := e.hum }

/-! ## Round-trip lemmas for the textual formats -/

theorem digitVal_digitChar {k : Nat} (h : k < 10) : digitVal (digitChar k) = some k := by
  have hb : ∀ j, j < 10 → digitVal (digitChar j) = some j := by decide
  exact hb k h

theorem digitChar_ne_sep {k : Nat} (h : k < 10) :
    digitChar k ≠ ',' ∧ digitChar k ≠ '.' ∧ digitChar k ≠ '-' := by
  have hb : ∀ j, j < 10 → digitChar j ≠ ',' ∧ digitChar j ≠ '.' ∧ digitChar j ≠ '-' := by decide
  exact hb k h

theorem parse4_pad4 {n : Nat} (h : n ≤ 9999) :
    parse4 (digitChar (n / 1000 % 10)) (digitChar (n / 100 % 10))
      (digitChar (n / 10 % 10)) (digitChar (n % 10)) = some n := by
  rw [parse4, digitVal_digitChar (Nat.mod_lt _ (by omega)),
    digitVal_digitChar (Nat.mod_lt _ (by omega)),
    digitVal_digitChar (Nat.mod_lt _ (by omega)),
    digitVal_digitChar (Nat.mod_lt _ (by omega))]
  simp only [Option.some.injEq]
  omega

theorem parse2_pad2 {n : Nat} (h : n ≤ 99) :
    parse2 (digitChar (n / 10 % 10)) (digitChar (n % 10)) = some n := by
  rw [parse2, digitVal_digitChar (Nat.mod_lt _ (by omega)),
    digitVal_digitChar (Nat.mod_lt _ (by omega))]
  simp only [Option.some.injEq]
  omega

theorem timestamp_valid_fields (t : Timestamp) (h : t.valid = true) :
    t.year ≤ 9999 ∧ 1 ≤ t.month ∧ t.month ≤ 12 ∧ 1 ≤ t.day ∧
      t.day ≤ days_in_month t.year t.month ∧ t.hour ≤ 23 ∧ t.minute ≤ 59 ∧
      t.second ≤ 59 := by
  simp only [Timestamp.valid, Bool.and_eq_true, decide_eq_true_eq] at h
  tauto

theorem days_in_month_le (y m : Nat) : days_in_month y m ≤ 31 := by
  unfold days_in_month
  split
  · split <;> omega
  · split <;> omega

theorem parse_format_iso (t : Timestamp) (h : t.valid = true) :
    parseIsoTimestamp (formatIsoTimestamp t) = some t := by
  obtain ⟨hy, hmo1, hmo2, hd1, hd2, hh, hmi, hse⟩ := timestamp_valid_fields t h
  have hd31 := le_trans hd2 (days_in_month_le t.year t.month)
  obtain ⟨y, mo, d, hh', mi, se⟩ := t
  simp only at hy hmo1 hmo2 hd1 hd31 hh hmi hse
  simp only [parseIsoTimestamp, formatIsoTimestamp, pad4, pad2, List.cons_append,
    List.nil_append, parseStampWith]
  rw [parse4_pad4 hy, parse2_pad2 (by omega), parse2_pad2 (by omega),
    parse2_pad2 (by omega), parse2_pad2 (by omega), parse2_pad2 (by omega)]
  simp [h]

theorem mem_natDigits {n : Nat} {c : Char} (hc : c ∈ natDigits n) :
    ∃ k, k < 10 ∧ c = digitChar k := by
  unfold natDigits at hc
  split_ifs at hc with h1 h2 h3 h4 <;> simp only [List.mem_cons, List.not_mem_nil,
    or_false] at hc
  · exact ⟨n, by omega, hc⟩
  · rcases hc with rfl | rfl
    · exact ⟨n / 10, by omega, rfl⟩
    · exact ⟨n % 10, by omega, rfl⟩
  · rcases hc with rfl | rfl | rfl
    · exact ⟨n / 100, by omega, rfl⟩
    · exact ⟨n / 10 % 10, by omega, rfl⟩
    · exact ⟨n % 10, by omega, rfl⟩
  · rcases hc with rfl | rfl | rfl | rfl
    · exact ⟨n / 1000, by omega, rfl⟩
    · exact ⟨n / 100 % 10, by omega, rfl⟩
    · exact ⟨n / 10 % 10, by omega, rfl⟩
    · exact ⟨n % 10, by omega, rfl⟩
  · rcases hc with rfl | rfl | rfl | rfl | rfl
    · exact ⟨n / 10000 % 10, by omega, rfl⟩
    · exact ⟨n / 1000 % 10, by omega, rfl⟩
    · exact ⟨n / 100 % 10, by omega, rfl⟩
    · exact ⟨n / 10 % 10, by omega, rfl⟩
    · exact ⟨n % 10, by omega, rfl⟩

theorem natDigits_head (n : Nat) : ∃ k tl, natDigits n = digitChar k :: tl ∧ k < 10 := by
  unfold natDigits
  split_ifs with h1 h2 h3 h4
  · exact ⟨n, _, rfl, by omega⟩
  · exact ⟨n / 10, _, rfl, by omega⟩
  · exact ⟨n / 100, _, rfl, by omega⟩
  · exact ⟨n / 1000, _, rfl, by omega⟩
  · exact ⟨n / 10000 % 10, _, rfl, by omega⟩

theorem parseNatDigits_cons (c : Char) (cs : List Char) :
    parseNatDigits (c :: cs) = parseNatAux (c :: cs) 0 := rfl

theorem parseNatAux_digit {a : Nat} (ha : a < 10) (rest : List Char) (acc : Nat) :
    parseNatAux (digitChar a :: rest) acc = parseNatAux rest (10 * acc + a) := by
  simp [parseNatAux, digitVal_digitChar ha]

theorem parseNat_natDigits {n : Nat} (h : n < 100000) :
    parseNatDigits (natDigits n) = some n := by
  unfold natDigits
  split_ifs with h1 h2 h3 h4
  · rw [parseNatDigits_cons, parseNatAux_digit (by omega)]
    simp only [parseNatAux, Option.some.injEq]
    omega
  · rw [parseNatDigits_cons, parseNatAux_digit (by omega), parseNatAux_digit (by omega)]
    simp only [parseNatAux, Option.some.injEq]
    omega
  · rw [parseNatDigits_cons, parseNatAux_digit (by omega), parseNatAux_digit (by omega),
      parseNatAux_digit (by omega)]
    simp only [parseNatAux, Option.some.injEq]
    omega
  · rw [parseNatDigits_cons, parseNatAux_digit (by omega), parseNatAux_digit (by omega),
      parseNatAux_digit (by omega), parseNatAux_digit (by omega)]
    simp only [parseNatAux, Option.some.injEq]
    omega
  · rw [parseNatDigits_cons, parseNatAux_digit (by omega), parseNatAux_digit (by omega),
      parseNatAux_digit (by omega), parseNatAux_digit (by omega),
      parseNatAux_digit (by omega)]
    simp only [parseNatAux, Option.some.injEq]
    omega

theorem splitOnChar_ne_nil (d : Char) (cs : List Char) : splitOnChar d cs ≠ [] := by
  cases cs with
  | nil => simp [splitOnChar]
  | cons c rest =>
    simp only [splitOnChar]
    split
    · simp
    · split <;> simp

theorem splitOnChar_of_not_mem {d : Char} {cs : List Char} (h : ∀ c ∈ cs, c ≠ d) :
    splitOnChar d cs = [cs] := by
  induction cs with
  | nil => rfl
  | cons c rest ih =>
    have hc : c ≠ d := h c (by simp)
    simp only [splitOnChar, ih (fun x hx => h x (by simp [hx])), hc, if_false]

theorem splitOnChar_append_sep {d : Char} {a b : List Char} (ha : ∀ c ∈ a, c ≠ d) :
    splitOnChar d (a ++ d :: b) = a :: splitOnChar d b := by
  induction a with
  | nil =>
    cases hb : splitOnChar d b with
    | nil => exact absurd hb (splitOnChar_ne_nil d b)
    | cons f fs => simp [splitOnChar, hb]
  | cons c a ih =>
    have hc : c ≠ d := ha c (by simp)
    have ih2 := ih (fun x hx => ha x (by simp [hx]))
    simp only [List.cons_append, splitOnChar, hc, if_false]
    rw [show splitOnChar d (List.append a (d :: b)) = a :: splitOnChar d b from ih2]

theorem splitOnChar_joinFields3 {d : Char} {x y z : List Char}
    (hx : ∀ c ∈ x, c ≠ d) (hy : ∀ c ∈ y, c ≠ d) (hz : ∀ c ∈ z, c ≠ d) :
    splitOnChar d (joinFields d [x, y, z]) = [x, y, z] := by
  show splitOnChar d (x ++ d :: (y ++ d :: z)) = [x, y, z]
  rw [splitOnChar_append_sep hx, splitOnChar_append_sep hy, splitOnChar_of_not_mem hz]

theorem not_mem_formatIso (t : Timestamp) : ∀ c ∈ formatIsoTimestamp t, c ≠ ',' := by
  intro c hc
  simp only [formatIsoTimestamp, pad4, pad2, List.cons_append, List.nil_append,
    List.mem_cons, List.not_mem_nil, or_false] at hc
  rcases hc with rfl|rfl|rfl|rfl|rfl|rfl|rfl|rfl|rfl|rfl|rfl|rfl|rfl|rfl|rfl|rfl|rfl|rfl|rfl
  all_goals first
    | exact (digitChar_ne_sep (Nat.mod_lt _ (by omega))).1
    | decide

theorem not_mem_formatTemp (d : Int) : ∀ c ∈ formatTempDeci d, c ≠ ',' := by
  intro c hc
  unfold formatTempDeci at hc
  rcases List.mem_append.mp hc with h1 | h2
  · rcases List.mem_append.mp h1 with hs | hn
    · split at hs
      · rcases List.mem_cons.mp hs with rfl | hs2
        · decide
        · exact absurd hs2 (List.not_mem_nil c)
      · exact absurd hs (List.not_mem_nil c)
    · obtain ⟨k, hk, rfl⟩ := mem_natDigits hn
      exact (digitChar_ne_sep hk).1
  · rcases List.mem_cons.mp h2 with rfl | h3
    · decide
    · rcases List.mem_cons.mp h3 with rfl | h4
      · exact (digitChar_ne_sep (Nat.mod_lt _ (by omega))).1
      · exact absurd h4 (List.not_mem_nil c)

theorem not_mem_natDigits_comma (n : Nat) : ∀ c ∈ natDigits n, c ≠ ',' := by
  intro c hc
  obtain ⟨k, hk, rfl⟩ := mem_natDigits hc
  exact (digitChar_ne_sep hk).1

theorem not_mem_natDigits_dot (n : Nat) : ∀ c ∈ natDigits n, c ≠ '.' := by
  intro c hc
  obtain ⟨k, hk, rfl⟩ := mem_natDigits hc
  exact (digitChar_ne_sep hk).2.1

theorem parseMag_format {m f : Nat} (hm : m < 100000) (hf : f < 10) :
    parseTempMagnitude (natDigits m ++ '.' :: [digitChar f]) = some (10 * m + f) := by
  unfold parseTempMagnitude
  rw [splitOnChar_append_sep (not_mem_natDigits_dot m),
    splitOnChar_of_not_mem (by intro c hc; simp only [List.mem_singleton] at hc
                               subst hc; exact (digitChar_ne_sep hf).2.1)]
  simp only [parseNat_natDigits hm, digitVal_digitChar hf]

theorem parseTemp_format {d : Int} (h : d.natAbs < 1000000) :
    parseTempDeci (formatTempDeci d) = some d := by
  rcases lt_or_le d 0 with hneg | hpos
  · simp only [formatTempDeci, if_pos hneg, List.singleton_append, List.cons_append,
      List.nil_append]
    simp only [parseTempDeci, ite_true]
    rw [parseMag_format (by omega) (by omega)]
    simp only [Option.some.injEq]
    omega
  · obtain ⟨k, tl, he, hk⟩ := natDigits_head (d.natAbs / 10)
    simp only [formatTempDeci, if_neg (not_lt.mpr hpos), List.nil_append]
    rw [he, List.cons_append]
    simp only [parseTempDeci, if_neg ((digitChar_ne_sep hk).2.2)]
    rw [← List.cons_append, ← he, parseMag_format (by omega) (by omega)]
    simp only [Option.some.injEq]
    omega

/-! ## Row-level and file-level lemmas -/

theorem decomma_of_not_mem {cs : List Char} (h : ∀ c ∈ cs, c ≠ ',') :
    decommaChars cs = cs := by
  unfold decommaChars
  induction cs with
  | nil => rfl
  | cons c rest ih =>
    simp only [List.map_cons]
    rw [if_neg (h c (by simp)), ih (fun x hx => h x (by simp [hx]))]

theorem parseHum_natDigits (b : Byte) : parseHumU8 (natDigits b.val) = some b := by
  unfold parseHumU8
  rw [parseNat_natDigits (by have := b.isLt; omega)]
  simp [b.isLt]

theorem splitOnChar_row_of (e : LogEntry) : splitOnChar ',' (row_of e) = fields_of e :=
  splitOnChar_joinFields3 (not_mem_formatIso e.ts) (not_mem_formatTemp e.tempDeci)
    (not_mem_natDigits_comma e.hum.val)

theorem parse_fields_of (e : LogEntry) (hts : e.ts.valid = true)
    (htemp : e.tempDeci.natAbs < 1000000) :
    parse_history_record (fields_of e) = some (point_of e) := by
  have h1 : parseIsoTimestamp (formatIsoTimestamp e.ts) = some e.ts :=
    parse_format_iso e.ts hts
  have h2 : parseTempDeci (decommaChars (formatTempDeci e.tempDeci)) = some e.tempDeci := by
    rw [decomma_of_not_mem (not_mem_formatTemp e.tempDeci)]
    exact parseTemp_format htemp
  have h3 : parseHumU8 (natDigits e.hum.val) = some e.hum := parseHum_natDigits e.hum
  simp [parse_history_record, fields_of, h1, h2, h3, point_of]

theorem filterMap_eq_map_of_forall_some {α β : Type} {f : α → Option β} {g : α → β} :
    ∀ {l : List α}, (∀ x ∈ l, f x = some (g x)) → l.filterMap f = l.map g := by
  intro l
  induction l with
  | nil => intro _; rfl
  | cons x xs ih =>
    intro h
    rw [List.filterMap_cons, h x (by simp), List.map_cons,
      ih (fun y hy => h y (by simp [hy]))]

theorem row_of_ne_nil (e : LogEntry) : row_of e ≠ [] := by
  unfold row_of joinFields formatIsoTimestamp pad4
  simp

theorem fields_of_length (e : LogEntry) : (fields_of e).length = 3 := rfl

theorem header_line_split : splitOnChar ',' (joinFields ',' header_fields) =
    header_fields := by decide

theorem csv_ok_records_header_rows (rows : List (List Char))
    (hne : ∀ r ∈ rows, r ≠ [])
    (h3 : ∀ r ∈ rows, (splitOnChar ',' r).length = 3) :
    csv_ok_records ',' (joinFields ',' header_fields :: rows) =
      rows.map (splitOnChar ',') := by
  unfold csv_ok_records
  have hfilter : (joinFields ',' header_fields :: rows).filter (fun l => !l.isEmpty) =
      joinFields ',' header_fields :: rows := by
    rw [List.filter_eq_self]
    intro a ha
    rcases List.mem_cons.mp ha with rfl | ha2
    · decide
    · have ha3 := hne a ha2
      simp [List.isEmpty_iff, ha3]
  rw [hfilter]
  have hh : (splitOnChar ',' (joinFields ',' header_fields)).length = 3 := by decide
  simp only [hh]
  exact filterMap_eq_map_of_forall_some (fun r hr => by simp [h3 r hr])

theorem write_log_acc (es : List LogEntry) :
    ∀ lines, lines ≠ [] → write_log es (some lines) = some (lines ++ es.map row_of) := by
  induction es with
  | nil => intro lines _; simp [write_log]
  | cons e es ih =>
    intro lines h
    have hstep : log_to_csv writeEnvOk (some lines) e.ts e.tempDeci e.hum =
        .ok (lines ++ [row_of e]) := by
      simp [log_to_csv, writeEnvOk, row_of, h]
    simp only [write_log, hstep]
    rw [ih (lines ++ [row_of e]) (by simp)]
    simp

theorem write_log_from_none (entries : List LogEntry) (h : entries ≠ []) :
    write_log entries none =
      some (joinFields ',' header_fields :: entries.map row_of) := by
  cases entries with
  | nil => exact absurd rfl h
  | cons e es =>
    have h0 : log_to_csv writeEnvOk none e.ts e.tempDeci e.hum =
        .ok [joinFields ',' header_fields, row_of e] := by
      simp [log_to_csv, writeEnvOk, row_of]
    simp only [write_log, h0]
    rw [write_log_acc es _ (by simp)]
    simp

theorem load_written_log (entries : List LogEntry)
    (hvalid : ∀ e ∈ entries, e.ts.valid = true ∧ e.tempDeci.natAbs < 1000000)
    (load_all : Bool) :
    load_history_from_csv load_all (write_log entries none) =
      (if load_all then entries
       else entries.drop (entries.length - MAX_HISTORY_POINTS)).map point_of := by
  cases hent : entries with
  | nil => cases load_all <;> rfl
  | cons e0 es =>
    subst hent
    rw [write_log_from_none _ (by simp)]
    simp only [load_history_from_csv]
    have hrecs : csv_ok_records ',' (joinFields ',' header_fields :: (e0 :: es).map row_of) =
        (e0 :: es).map fields_of := by
      rw [csv_ok_records_header_rows]
      · rw [List.map_map]
        exact List.map_congr_left (fun e _ => splitOnChar_row_of e)
      · intro r hr
        obtain ⟨e, _, rfl⟩ := List.mem_map.mp hr
        exact row_of_ne_nil e
      · intro r hr
        obtain ⟨e, _, rfl⟩ := List.mem_map.mp hr
        rw [splitOnChar_row_of e]
        exact fields_of_length e
    simp only [read_all_records]
    rw [hrecs]
    have hnotempty : (((e0 :: es).map fields_of).isEmpty) = false := by simp
    rw [if_neg (by simp [hnotempty])]
    have hparse : ∀ r ∈ (e0 :: es).map fields_of,
        ∃ e, fields_of e = r ∧ parse_history_record r = some (point_of e) := by
      intro r hr
      obtain ⟨e, he, rfl⟩ := List.mem_map.mp hr
      exact ⟨e, rfl, parse_fields_of e (hvalid e he).1 (hvalid e he).2⟩
    cases load_all with
    | true =>
      simp only [select_records, if_pos rfl, if_true]
      rw [List.filterMap_map]
      exact filterMap_eq_map_of_forall_some (fun e he =>
        parse_fields_of e (hvalid e he).1 (hvalid e he).2)
    | false =>
      simp only [select_records, Bool.false_eq_true, if_false, List.length_map]
      rw [← List.map_drop, List.filterMap_map]
      exact filterMap_eq_map_of_forall_some (fun e he =>
        parse_fields_of e (hvalid e (List.mem_of_mem_drop he)).1
          (hvalid e (List.mem_of_mem_drop he)).2)

/-! ## Claim C5: HistoryLog round trip -/

/-- Claim C5. Writing a sequence of `N` readings (with distinct, valid
wall-clock timestamps) through the log writer into an initially absent
file and loading the result with unbounded history yields exactly `N`
`HistoryPoint`s with the same timestamps, temperatures and humidities,
in the same order.  Temperatures are exact here because the model
works in tenths of a degree, the resolution at which the decoder
produces and the writer prints them. -/
theorem history_log_round_trip (entries : List LogEntry)
    (hvalid : ∀ e ∈ entries, e.ts.valid = true ∧ e.tempDeci.natAbs < 1000000)
    (hdistinct : (entries.map LogEntry.ts).Nodup) :
    load_history_from_csv true (write_log entries none) = entries.map point_of ∧
    (load_history_from_csv true (write_log entries none)).length = entries.length := by
  have h := load_written_log entries hvalid true
  simp only [if_pos rfl, if_true] at h
  exact ⟨h, by rw [h, List.length_map]⟩

/-- Two concrete valid entries for the round-trip witness. -/
def entryA : LogEntry := { ts := ⟨2024, 5, 17, 12, 0, 0⟩, tempDeci := 215, hum := (60 : Byte) }

/-- Second concrete entry (negative temperature). -/
def entryB : LogEntry := { ts := ⟨2024, 5, 17, 12, 0, 30⟩, tempDeci := -5, hum := (61 : Byte) }

/-- Witness for C5 at two concrete readings, one with a negative
temperature. -/
theorem history_log_round_trip_witness :
    load_history_from_csv true (write_log [entryA, entryB] none) =
      [point_of entryA, point_of entryB] := by
  have h := (history_log_round_trip [entryA, entryB] (by decide) (by decide)).1
  simpa using h

/-! ## Claim C3: bounded history load -/

/-- Claim C3. Loading a log of `M` valid rows (all parseable; `M` above
the fixed bound `MAX_HISTORY_POINTS = 200`) with
`load_all_history = false` retains exactly the most recent
`MAX_HISTORY_POINTS` rows, oldest discarded, in oldest-first order. -/
theorem bounded_history_load (entries : List LogEntry)
    (hvalid : ∀ e ∈ entries, e.ts.valid = true ∧ e.tempDeci.natAbs < 1000000)
    (hM : MAX_HISTORY_POINTS < entries.length) :
    load_history_from_csv false (write_log entries none) =
      (entries.drop (entries.length - MAX_HISTORY_POINTS)).map point_of ∧
    (load_history_from_csv false (write_log entries none)).length = MAX_HISTORY_POINTS := by
  have h := load_written_log entries hvalid false
  simp only [Bool.false_eq_true, if_false] at h
  refine ⟨h, ?_⟩
  rw [h, List.length_map, List.length_drop]
  omega

/-- Witness for C3: a log of 201 valid rows loads back exactly 200
points in bounded mode. -/
theorem bounded_history_load_witness :
    (load_history_from_csv false (write_log (List.replicate 201 entryA) none)).length =
      MAX_HISTORY_POINTS := by
  refine (bounded_history_load (List.replicate 201 entryA) ?_ ?_).2
  · intro e he
    rw [List.eq_of_mem_replicate he]
    decide
  · rw [List.length_replicate]
    decide

/-! ## Claim C8: write-path format -/

/-- Claim C8. For every single-row write: the three-column header is
written first if and only if the file is absent or has zero length;
the appended row is comma-separated with the fixed sortable timestamp,
the temperature with exactly one fractional digit behind a dot, and
the humidity as a plain integer; the function returns `ok` only when
open, write and flush all succeeded (the flush gates the result), and
any open/write/flush failure is reported to the caller as a write
failure. -/
theorem write_path_format (env : WriteEnv) (file : Option (List (List Char)))
    (now : Timestamp) (tempDeci : Int) (hum : Byte) :
    (env = writeEnvOk → (file = none ∨ file = some []) →
      log_to_csv env file now tempDeci hum =
        .ok (file.getD [] ++ [joinFields ',' header_fields,
          joinFields ',' [formatIsoTimestamp now, formatTempDeci tempDeci,
            natDigits hum.val]])) ∧
    (env = writeEnvOk → ¬(file = none ∨ file = some []) →
      log_to_csv env file now tempDeci hum =
        .ok (file.getD [] ++ [joinFields ','
          [formatIsoTimestamp now, formatTempDeci tempDeci, natDigits hum.val]])) ∧
    (env.open_ok = false ∨ env.write_ok = false ∨ env.flush_ok = false →
      ∃ msg, log_to_csv env file now tempDeci hum = .error msg) ∧
    (joinFields ',' [formatIsoTimestamp now, formatTempDeci tempDeci, natDigits hum.val] =
      formatIsoTimestamp now ++ ',' :: (formatTempDeci tempDeci ++
        ',' :: natDigits hum.val)) ∧
    (∃ ip, formatTempDeci tempDeci = ip ++ '.' :: [digitChar (tempDeci.natAbs % 10)] ∧
      '.' ∉ ip) := by
  refine ⟨?_, ?_, ?_, rfl, ?_⟩
  · rintro rfl h2
    simp [log_to_csv, writeEnvOk, if_pos h2]
  · rintro rfl h2
    simp [log_to_csv, writeEnvOk, if_neg h2]
  · intro h
    rcases h with h | h | h
    · exact ⟨"open failed".toList, by simp [log_to_csv, h]⟩
    · cases ho : env.open_ok
      · exact ⟨"open failed".toList, by simp [log_to_csv, ho]⟩
      · exact ⟨"write failed".toList, by simp [log_to_csv, h, ho]⟩
    · cases ho : env.open_ok
      · exact ⟨"open failed".toList, by simp [log_to_csv, ho]⟩
      · cases hw : env.write_ok
        · exact ⟨"write failed".toList, by simp [log_to_csv, hw, ho]⟩
        · exact ⟨"flush failed".toList, by simp [log_to_csv, h, hw, ho]⟩
  · refine ⟨(if tempDeci < 0 then ['-'] else []) ++ natDigits (tempDeci.natAbs / 10),
      rfl, ?_⟩
    intro hdot
    rcases List.mem_append.mp hdot with hs | hn
    · split at hs
      · rcases List.mem_cons.mp hs with h | h
        · exact absurd h (by decide)
        · exact absurd h (List.not_mem_nil _)
      · exact absurd hs (List.not_mem_nil _)
    · exact not_mem_natDigits_dot _ _ hn rfl

/-- Witness for C8: a write into an absent file produces header plus
row; a write with a failing flush is reported as an error. -/
theorem write_path_format_witness :
    log_to_csv writeEnvOk none ⟨2024, 5, 17, 12, 0, 0⟩ 215 (60 : Byte) =
      .ok ["DateTime,Temperature,Humidity".toList,
           "2024-05-17T12:00:00,21.5,60".toList] ∧
    (∃ msg, log_to_csv { open_ok := true, write_ok := true, flush_ok := false }
      none ⟨2024, 5, 17, 12, 0, 0⟩ 215 (60 : Byte) = .error msg) := by
  constructor
  · have h := (write_path_format writeEnvOk none ⟨2024, 5, 17, 12, 0, 0⟩ 215
      (60 : Byte)).1 rfl (Or.inl rfl)
    exact h.trans (congrArg Except.ok (by decide))
  · exact (write_path_format { open_ok := true, write_ok := true, flush_ok := false }
      none ⟨2024, 5, 17, 12, 0, 0⟩ 215 (60 : Byte)).2.2.1 (Or.inr (Or.inr rfl))

/-! ## Claim C4: legacy-format load (code bug) -/

/-- A semicolon-delimited 4-column legacy row (dot decimal). -/
def legacyLine1 : List Char := "2023.01.01;12:00:00;21.5;60".toList

/-- A second legacy row. -/
def legacyLine2 : List Char := "2023.01.01;12:00:30;21.6;61".toList

/-- Claim C4, evaluated at the failing input.  Both rows of the
two-row legacy file are individually parseable as legacy records, yet
the comma-delimited first attempt yields one single-field record —
not zero — because the `csv` reader consumes the first line as its
header and a line without commas is a valid one-field record; the
semicolon retry therefore never runs and the loader returns no points
at all, so the file is not "fully parsed" as the claim states.
(Even when the retry does run, the first legacy line is consumed as
the header, so a legacy file is never fully parsed.) -/
theorem legacy_load_not_retried :
    parse_history_record (splitOnChar ';' legacyLine1) =
      some { timestamp := ⟨2023, 1, 1, 12, 0, 0⟩, tempDeci := 215, hum := (60 : Byte) } ∧
    parse_history_record (splitOnChar ';' legacyLine2) =
      some { timestamp := ⟨2023, 1, 1, 12, 0, 30⟩, tempDeci := 216, hum := (61 : Byte) } ∧
    csv_ok_records ',' [legacyLine1, legacyLine2] = [[legacyLine2]] ∧
    load_history_from_csv true (some [legacyLine1, legacyLine2]) = [] := by
  refine ⟨by decide, by decide, by decide, by decide⟩

/-! ## Claim C9: termination safety (code bug) -/

/-- Claim C9, evaluated at the failing input.  When the day's log file
exists and its comma parse yields zero records (here: an empty file),
the loader reopens the file for the semicolon retry through
`.expect("failed to reopen file")`; if that reopen fails (file
deleted or made unreadable between the two opens), the expect panics
and aborts the process.  With a succeeding reopen the same
environment loads an empty history, so the panic is precisely the
failed-reopen outcome. -/
theorem loader_panics_on_failed_reopen :
    load_history_from_csv_env true
      { file := some [], first_open_ok := true, reopen_ok := false } =
      .panicked "failed to reopen file".toList ∧
    load_history_from_csv_env true
      { file := some [], first_open_ok := true, reopen_ok := true } = .ok [] := by
  exact ⟨by decide, by decide⟩

end TP357
